import Mathlib

/-!
Verification of the document ingestion and lifecycle subsystem of the
supportly repository (packages/backend/convex/private/files.ts), as a
shallow embedding in Lean 4.

Machine data is modelled as follows: raw file bytes are a `List Nat`,
storage identifiers are natural numbers (indices into the blob list),
entry identifiers are natural numbers allocated from a counter, and the
JavaScript object returned by `addFile` is an association list from field
names to `JsVal` values.

External collaborators that are called but whose code is not part of the
repository (the `@convex-dev/rag` component, the Convex storage API, and
the text extraction helper) are modelled from the specification at their
interface boundary; each such definition carries a doc comment saying so.
The handlers `addFile` and `deleteFile` themselves are translated
statement by statement from `files.ts`.
-/

/-- Decidable equality for `Except`, so that witnesses can evaluate
handler outcomes with `decide`. -/
instance {ε α : Type} [DecidableEq ε] [DecidableEq α] : DecidableEq (Except ε α) := fun x y =>
  match x, y with
  | Except.ok a, Except.ok b =>
      if h : a = b then Decidable.isTrue (by rw [h])
      else Decidable.isFalse (fun hc => h (Except.ok.inj hc))
  | Except.error a, Except.error b =>
      if h : a = b then Decidable.isTrue (by rw [h])
      else Decidable.isFalse (fun hc => h (Except.error.inj hc))
  | Except.ok _, Except.error _ => Decidable.isFalse (fun hc => Except.noConfusion hc)
  | Except.error _, Except.ok _ => Decidable.isFalse (fun hc => Except.noConfusion hc)

/-- Error codes thrown via `ConvexError` in `files.ts`, plus the error
kinds the specification names for extraction and transient I/O failures
(the extraction oracle may fail with any of them). -/
inductive ErrCode where
  | unauthorized
  | notFound
  | unsupportedFormat
  | transientIO
deriving DecidableEq

/-- The authenticated identity object: `identity.orgId as string`.
JavaScript truthiness of the claim is modelled by the empty string being
falsy (`if (!orgId)` in the source rejects both a missing and an empty
claim). -/
structure Identity where
  orgId : String
deriving DecidableEq

/-- A blob as handed to `ctx.storage.store`: the raw bytes together with
the MIME type given to the `Blob` constructor. -/
structure StoredBlob where
  bytes : List Nat
  mimeType : String
deriving DecidableEq

/-- Modelled from the spec: the Blob Store Adapter (`store`, `getUrl`,
`delete`). Identifiers are indices into the list; a deleted blob leaves
`none` at its index so identifiers are never reused. -/
structure Storage where
  blobs : List (Option StoredBlob)
deriving DecidableEq

/-- Modelled from the spec: `store(bytes) -> storageId` appends the blob
and returns its fresh identifier. -/
def Storage.store (s : Storage) (b : StoredBlob) : Storage × Nat :=
  (⟨s.blobs ++ [some b]⟩, s.blobs.length)

/-- Modelled from the spec: `delete(storageId) -> void`. -/
def Storage.delete (s : Storage) (sid : Nat) : Storage :=
  ⟨s.blobs.set sid none⟩

/-- The URL issued for a storage identifier; distinct identifiers get
distinct URLs. -/
def urlOf (sid : Nat) : String :=
  "https://storage.example/" ++ toString sid

/-- Modelled from the spec: `getUrl(storageId) -> url`; returns a URL for
a stored blob and null (here `none`) for an absent one, matching the
`string | null` result of `ctx.storage.getUrl`. -/
def Storage.getUrl (s : Storage) (sid : Nat) : Option String :=
  match s.blobs.getD sid none with
  | some _ => some (urlOf sid)
  | none => none

/-- The metadata map written by `addFile` (lines 134-139 of files.ts):
`storageId`, `uploadedBy`, `filename`, `category` (null when absent).
`storageId` is optional because `deleteFile` tests its presence with
`entry.metadata?.storageId`. -/
structure EntryMetadata where
  storageId : Option Nat
  uploadedBy : String
  filename : String
  category : Option String
deriving DecidableEq

/-- An Entry of the metadata index, as described in the data model of the
specification and populated by `rag.add` in `addFile`. The source field
`namespace` is called `ns` here because `namespace` is a Lean keyword.
Chunks are stored with the entry because they are created in bulk with it
and destroyed in bulk with it. -/
structure Entry where
  entryId : Nat
  ns : String
  key : String
  title : String
  metadata : EntryMetadata
  contentHash : List Nat
  text : String
  chunks : List String
deriving DecidableEq

/-- Modelled from the spec: the state of the RAG component (Entry Store,
Namespace Registry, and chunk index). `nextEntryId` is the allocation
counter for fresh entry identifiers; `namespaces` records every namespace
ever created by an ingestion. -/
structure RagState where
  entries : List Entry
  nextEntryId : Nat
  namespaces : List String
deriving DecidableEq

/-- The combined state the handlers act on: blob storage plus the RAG
component state. -/
structure SysState where
  storage : Storage
  rag : RagState
deriving DecidableEq

/-- Modelled from the spec: `contentHashFromArrayBuffer` is any
collision-resistant deterministic digest over the exact raw bytes. It is
modelled as the identity on the byte list, which is deterministic and
collision-free, the two properties the specification demands. -/
def contentHashFromArrayBuffer (bytes : List Nat) : List Nat :=
  bytes

/-- Whether a text consists only of whitespace characters (including the
empty text). -/
def isWhitespaceText (s : String) : Bool :=
  s.data.all (fun c => c == ' ' || c == '\t' || c == '\n' || c == '\r')

/-- Modelled from the spec: the chunker splits extracted text into
bounded-size chunks deterministically (the exact policy is
implementation-defined). Whitespace-only text yields no chunks; other
text is modelled as a single chunk. -/
def chunksOf (text : String) : List String :=
  if isWhitespaceText text then [] else [text]

/-- The dedup predicate of the Entry Store: an existing entry collides
when it lives in the same namespace and has the same content hash. -/
def dedupHit (ns : String) (hash : List Nat) (e : Entry) : Bool :=
  e.ns == ns && e.contentHash == hash

/-- Modelled from the spec: `rag.add`. When an Entry with the given
`contentHash` already exists in the namespace, no new Entry is created
and the existing identity is returned with `created = false`; otherwise a
fresh Entry is committed together with its chunks and the namespace is
registered. Returns (new state, entryId, created). -/
def RAG.add (st : RagState) (ns key title : String) (md : EntryMetadata)
    (contentHash : List Nat) (text : String) : RagState × Nat × Bool :=
  match st.entries.find? (dedupHit ns contentHash) with
  | some e => (st, e.entryId, false)
  | none =>
      (⟨st.entries ++ [⟨st.nextEntryId, ns, key, title, md, contentHash, text, chunksOf text⟩],
        st.nextEntryId + 1,
        if st.namespaces.contains ns then st.namespaces else st.namespaces ++ [ns]⟩,
       st.nextEntryId, true)

/-- Modelled from the spec: `rag.getNamespace` resolves a namespace that
exists in the Namespace Registry and nothing for an unknown one. -/
def RAG.getNamespace (st : RagState) (ns : String) : Option String :=
  if st.namespaces.contains ns then some ns else none

/-- Modelled from the spec: `rag.getEntry` loads an Entry by identifier. -/
def RAG.getEntry (st : RagState) (entryId : Nat) : Option Entry :=
  st.entries.find? (fun e => e.entryId == entryId)

/-- Modelled from the spec: the state effect of `rag.deleteAsync` removes
the chunks of the entry and the entry record itself. -/
def RAG.deleteEntry (st : RagState) (entryId : Nat) : RagState :=
  ⟨st.entries.filter (fun e => e.entryId != entryId), st.nextEntryId, st.namespaces⟩

/-- JavaScript values appearing in the object returned by `addFile`. -/
inductive JsVal where
  | str : String → JsVal
  | num : Nat → JsVal
  | boolVal : Bool → JsVal
  | null : JsVal
deriving DecidableEq

/-- Conversion of the `string | null` result of `ctx.storage.getUrl` to a
JavaScript value. -/
def jsOfOptStr : Option String → JsVal
  | some s => JsVal.str s
  | none => JsVal.null

/-- JavaScript truthiness test for an optional string result (`null`,
`undefined` and the empty string are falsy). -/
def jsTruthy : Option String → Bool
  | some s => !s.isEmpty
  | none => false

/-- The JavaScript expression `a || d` for an optional string `a` and a
default `d`. -/
def jsOrElse (a : Option String) (d : String) : String :=
  match a with
  | some s => if s.isEmpty then d else s
  | none => d

/-- `guessMimeType` from files.ts lines 13-19: the fallback chain
extension guess, then content sniff, then "application/octet-stream".
The two library detectors are oracles passed as function arguments
because their code lives in `@convex-dev/rag`, outside the repository. -/
def guessMimeType (extGuess : String → Option String)
    (sniffGuess : List Nat → Option String)
    (filename : String) (bytes : List Nat) : String :=
  jsOrElse (extGuess filename) (jsOrElse (sniffGuess bytes) "application/octet-stream")

/-- The `args.mimeType || guessMimeType(filename, bytes)` expression of
files.ts line 111: the caller-supplied MIME type when truthy, otherwise
the fallback chain. -/
def effectiveMime (extGuess : String → Option String)
    (sniffGuess : List Nat → Option String)
    (filename mimeTypeArg : String) (bytes : List Nat) : String :=
  if mimeTypeArg.isEmpty then guessMimeType extGuess sniffGuess filename bytes
  else mimeTypeArg

/-- The handler of the `addFile` action, files.ts lines 90-151, translated
statement by statement. The extraction helper `extractTextContent`
(imported from ../lib/extractTextContent, whose code is not under src/)
is an oracle argument receiving exactly the fields the source passes it
(storageId, filename, bytes, mimeType) and either returning text or
throwing. The result pairs the post state with either the thrown error or
the returned JavaScript object; on an error the writes already performed
(the blob store call is a separate persisted action call) are kept in the
post state. -/
def addFile (extGuess : String → Option String)
    (sniffGuess : List Nat → Option String)
    (extractTextContent : Nat → String → List Nat → String → Except ErrCode String)
    (st : SysState) (identity : Option Identity)
    (filename mimeTypeArg : String) (bytes : List Nat) (category : Option String) :
    SysState × Except ErrCode (List (String × JsVal)) :=
  match identity with
  | none => (st, Except.error ErrCode.unauthorized)
  | some id =>
      if id.orgId.isEmpty then (st, Except.error ErrCode.unauthorized)
      else
        let orgId := id.orgId
        let mimeType := effectiveMime extGuess sniffGuess filename mimeTypeArg bytes
        let stored := Storage.store st.storage ⟨bytes, mimeType⟩
        let storage1 := stored.1
        let storageId := stored.2
        match extractTextContent storageId filename bytes mimeType with
        | Except.error e => (⟨storage1, st.rag⟩, Except.error e)
        | Except.ok text =>
            let added := RAG.add st.rag orgId filename filename
              ⟨some storageId, orgId, filename, category⟩
              (contentHashFromArrayBuffer bytes) text
            (⟨storage1, added.1⟩,
             Except.ok [("url", jsOfOptStr (Storage.getUrl storage1 storageId)),
                        ("entryId", JsVal.num added.2.1)])

/-- One observable deletion step performed by `deleteFile`, used to state
ordering properties: deleting the blob, deleting the chunks of an entry,
and deleting the entry metadata record. -/
inductive DeleteOp where
  | blob : Nat → DeleteOp
  | chunks : Nat → DeleteOp
  | entryRecord : Nat → DeleteOp
deriving DecidableEq

/-- The handler of the `deleteFile` mutation, files.ts lines 25-80,
translated statement by statement. Besides the post state and the
outcome it returns the trace of deletion steps in execution order; the
two steps of `rag.deleteAsync` (chunks, then entry record) follow the
deletion order the specification gives for the Lifecycle Manager, since
the component code is not part of the repository. Every error is thrown
before any write, so the failing cases return the input state with an
empty trace. -/
def deleteFile (st : SysState) (identity : Option Identity) (entryId : Nat) :
    SysState × List DeleteOp × Except ErrCode Unit :=
  match identity with
  | none => (st, [], Except.error ErrCode.unauthorized)
  | some id =>
      if id.orgId.isEmpty then (st, [], Except.error ErrCode.unauthorized)
      else
        match RAG.getNamespace st.rag id.orgId with
        | none => (st, [], Except.error ErrCode.unauthorized)
        | some _ =>
            match RAG.getEntry st.rag entryId with
            | none => (st, [], Except.error ErrCode.notFound)
            | some entry =>
                if entry.metadata.uploadedBy ≠ id.orgId then
                  (st, [], Except.error ErrCode.unauthorized)
                else
                  let afterBlob :=
                    match entry.metadata.storageId with
                    | some sid => (Storage.delete st.storage sid, [DeleteOp.blob sid])
                    | none => (st.storage, [])
                  (⟨afterBlob.1, RAG.deleteEntry st.rag entryId⟩,
                   afterBlob.2 ++ [DeleteOp.chunks entryId, DeleteOp.entryRecord entryId],
                   Except.ok ())

/-! ## Concrete fixtures used by witnesses and counterexamples -/

/-- Extension detector that never recognises a filename. -/
def extNone : String → Option String := fun _ => none

/-- Content sniffer that never recognises contents. -/
def sniffNone : List Nat → Option String := fun _ => none

/-- Extension detector recognising every filename as plain text. -/
def extPlain : String → Option String := fun _ => some "text/plain"

/-- Extraction oracle returning a fixed text for every input. -/
def extractConst (t : String) : Nat → String → List Nat → String → Except ErrCode String :=
  fun _ _ _ _ => Except.ok t

/-- Extraction oracle failing with a transient I/O error on every input. -/
def extractFail : Nat → String → List Nat → String → Except ErrCode String :=
  fun _ _ _ _ => Except.error ErrCode.transientIO

/-- The empty system state: no blobs, no entries, no namespaces. -/
def emptyState : SysState := ⟨⟨[]⟩, ⟨[], 0, []⟩⟩

/-- A caller identity with organization claim "acme". -/
def acmeId : Identity := ⟨"acme"⟩

/-- Sample file bytes. -/
def bytesB : List Nat := [104, 105]

/-! ## Helper lemmas about the embedded operations -/

/-- The URL of a blob that was just appended to the store. -/
theorem Storage.getUrl_store_fresh (l : List (Option StoredBlob)) (b : StoredBlob) :
    Storage.getUrl ⟨l ++ [some b]⟩ l.length = some (urlOf l.length) := by
  simp [Storage.getUrl, List.getD_eq_getElem?_getD, List.getElem?_concat_length]

/-- `RAG.add` on a dedup hit returns the colliding entry and changes
nothing. -/
theorem RAG.add_hit (st : RagState) (ns key title : String) (md : EntryMetadata)
    (hash : List Nat) (text : String) (e : Entry)
    (h : st.entries.find? (dedupHit ns hash) = some e) :
    RAG.add st ns key title md hash text = (st, e.entryId, false) := by
  simp [RAG.add, h]

/-- `RAG.add` on a dedup miss appends one fresh entry carrying exactly
the supplied fields. -/
theorem RAG.add_miss (st : RagState) (ns key title : String) (md : EntryMetadata)
    (hash : List Nat) (text : String)
    (h : st.entries.find? (dedupHit ns hash) = none) :
    RAG.add st ns key title md hash text =
      (⟨st.entries ++ [⟨st.nextEntryId, ns, key, title, md, hash, text, chunksOf text⟩],
        st.nextEntryId + 1,
        if st.namespaces.contains ns then st.namespaces else st.namespaces ++ [ns]⟩,
       st.nextEntryId, true) := by
  simp [RAG.add, h]

/-- Characterization of `addFile` on the path where the caller is
authorized and extraction succeeds: the blob is appended unconditionally
and the result reports the URL of the fresh blob together with whatever
entry identity `RAG.add` resolves. -/
theorem addFile_ok_eq (extGuess : String → Option String)
    (sniffGuess : List Nat → Option String)
    (extract : Nat → String → List Nat → String → Except ErrCode String)
    (st : SysState) (id : Identity) (filename mt : String) (bytes : List Nat)
    (category : Option String) (text : String)
    (hOrg : id.orgId.isEmpty = false)
    (hx : extract st.storage.blobs.length filename bytes
            (effectiveMime extGuess sniffGuess filename mt bytes) = Except.ok text) :
    addFile extGuess sniffGuess extract st (some id) filename mt bytes category =
      (⟨⟨st.storage.blobs ++ [some ⟨bytes, effectiveMime extGuess sniffGuess filename mt bytes⟩]⟩,
        (RAG.add st.rag id.orgId filename filename
          ⟨some st.storage.blobs.length, id.orgId, filename, category⟩
          (contentHashFromArrayBuffer bytes) text).1⟩,
       Except.ok [("url", JsVal.str (urlOf st.storage.blobs.length)),
                  ("entryId", JsVal.num (RAG.add st.rag id.orgId filename filename
                    ⟨some st.storage.blobs.length, id.orgId, filename, category⟩
                    (contentHashFromArrayBuffer bytes) text).2.1)]) := by
  simp only [addFile, hOrg, Bool.false_eq_true, if_false, Storage.store, hx]
  rw [Storage.getUrl_store_fresh]
  rfl

/-- Characterization of `addFile` on the path where the caller is
authorized and extraction throws: the stored blob is kept and the error
propagates; the RAG state is untouched. -/
theorem addFile_extract_error_eq (extGuess : String → Option String)
    (sniffGuess : List Nat → Option String)
    (extract : Nat → String → List Nat → String → Except ErrCode String)
    (st : SysState) (id : Identity) (filename mt : String) (bytes : List Nat)
    (category : Option String) (e : ErrCode)
    (hOrg : id.orgId.isEmpty = false)
    (hx : extract st.storage.blobs.length filename bytes
            (effectiveMime extGuess sniffGuess filename mt bytes) = Except.error e) :
    addFile extGuess sniffGuess extract st (some id) filename mt bytes category =
      (⟨⟨st.storage.blobs ++ [some ⟨bytes, effectiveMime extGuess sniffGuess filename mt bytes⟩]⟩,
        st.rag⟩,
       Except.error e) := by
  simp only [addFile, hOrg, Bool.false_eq_true, if_false, Storage.store, hx]

/-- `jsOrElse` never yields the empty string when its default is
nonempty. -/
theorem jsOrElse_isEmpty_false (a : Option String) (d : String)
    (hd : d.isEmpty = false) : (jsOrElse a d).isEmpty = false := by
  cases a with
  | none => exact hd
  | some s => cases h : s.isEmpty <;> simp [jsOrElse, h, hd]

/-- `jsOrElse` keeps a truthy first operand. -/
theorem jsOrElse_truthy (s d : String) (h : s.isEmpty = false) :
    jsOrElse (some s) d = s := by
  simp [jsOrElse, h]

/-- `jsOrElse` falls through a falsy first operand. -/
theorem jsOrElse_falsy (a : Option String) (d : String)
    (h : jsTruthy a = false) : jsOrElse a d = d := by
  cases a with
  | none => rfl
  | some s =>
      simp only [jsTruthy, Bool.not_eq_false'] at h
      simp [jsOrElse, h]

/-- The empty MIME argument is falsy, so the fallback chain applies. -/
theorem effectiveMime_empty (extGuess : String → Option String)
    (sniffGuess : List Nat → Option String) (filename : String) (bytes : List Nat) :
    effectiveMime extGuess sniffGuess filename "" bytes =
      guessMimeType extGuess sniffGuess filename bytes := rfl

/-- Claim C7: `guessMimeType` returns exactly the first truthy value of
the chain extension guess, content sniff, generic binary fallback; the
result is never null or empty; and `addFile` applies this chain whenever
the supplied mimeType argument is falsy (the blob it stores then carries
the chain result as its type). -/
theorem guessMimeType_fallback_chain
    (extGuess : String → Option String) (sniffGuess : List Nat → Option String)
    (filename : String) (bytes : List Nat) :
    (guessMimeType extGuess sniffGuess filename bytes).isEmpty = false
    ∧ (∀ s, extGuess filename = some s → s.isEmpty = false →
        guessMimeType extGuess sniffGuess filename bytes = s)
    ∧ (∀ t, jsTruthy (extGuess filename) = false → sniffGuess bytes = some t →
        t.isEmpty = false → guessMimeType extGuess sniffGuess filename bytes = t)
    ∧ (jsTruthy (extGuess filename) = false → jsTruthy (sniffGuess bytes) = false →
        guessMimeType extGuess sniffGuess filename bytes = "application/octet-stream")
    ∧ (∀ extract st id category, id.orgId.isEmpty = false →
        (addFile extGuess sniffGuess extract st (some id) filename "" bytes category).1.storage.blobs
          = st.storage.blobs
            ++ [some ⟨bytes, guessMimeType extGuess sniffGuess filename bytes⟩]) := by
  refine ⟨?_, ?_, ?_, ?_, ?_⟩
  · exact jsOrElse_isEmpty_false _ _ (jsOrElse_isEmpty_false _ _ rfl)
  · intro s hs hne
    simp only [guessMimeType, hs]
    exact jsOrElse_truthy s _ hne
  · intro t hfalsy hsniff hne
    simp only [guessMimeType]
    rw [jsOrElse_falsy _ _ hfalsy, hsniff]
    exact jsOrElse_truthy t _ hne
  · intro h1 h2
    simp only [guessMimeType]
    rw [jsOrElse_falsy _ _ h1, jsOrElse_falsy _ _ h2]
  · intro extract st id category hOrg
    cases hx : extract st.storage.blobs.length filename bytes
        (effectiveMime extGuess sniffGuess filename "" bytes) with
    | ok text =>
        rw [addFile_ok_eq extGuess sniffGuess extract st id filename "" bytes category text hOrg hx,
          effectiveMime_empty]
    | error e =>
        rw [addFile_extract_error_eq extGuess sniffGuess extract st id filename "" bytes category e hOrg hx,
          effectiveMime_empty]

/-- Witness for C7 at concrete detectors, bytes and state. -/
theorem guessMimeType_fallback_chain_witness :
    guessMimeType extNone sniffNone "a.bin" [1] = "application/octet-stream"
    ∧ guessMimeType extPlain sniffNone "a.txt" [1] = "text/plain"
    ∧ (addFile extNone sniffNone (extractConst "hi") emptyState (some acmeId)
        "a.bin" "" [1] none).1.storage.blobs
        = [some ⟨[1], "application/octet-stream"⟩] := by
  have h1 := guessMimeType_fallback_chain extNone sniffNone "a.bin" [1]
  have h2 := guessMimeType_fallback_chain extPlain sniffNone "a.txt" [1]
  refine ⟨h1.2.2.2.1 rfl rfl, h2.2.1 "text/plain" rfl rfl, ?_⟩
  have h3 := h1.2.2.2.2 (extractConst "hi") emptyState acmeId none rfl
  rw [h3, h1.2.2.2.1 rfl rfl]
  rfl

/-- Claim C4: every failing path of `deleteFile` (missing identity,
missing organization claim, entry not found, owner mismatch) throws the
stated error code before any deletion step, leaving the state untouched
and the deletion trace empty. -/
theorem deleteFile_checks_precede_deletion (st : SysState) (id : Identity) (eid : Nat) :
    deleteFile st none eid = (st, [], Except.error ErrCode.unauthorized)
    ∧ (id.orgId.isEmpty = true →
        deleteFile st (some id) eid = (st, [], Except.error ErrCode.unauthorized))
    ∧ (id.orgId.isEmpty = false → RAG.getNamespace st.rag id.orgId = some id.orgId →
        RAG.getEntry st.rag eid = none →
        deleteFile st (some id) eid = (st, [], Except.error ErrCode.notFound))
    ∧ (∀ entry, id.orgId.isEmpty = false →
        RAG.getNamespace st.rag id.orgId = some id.orgId →
        RAG.getEntry st.rag eid = some entry →
        entry.metadata.uploadedBy ≠ id.orgId →
        deleteFile st (some id) eid = (st, [], Except.error ErrCode.unauthorized)) := by
  refine ⟨rfl, ?_, ?_, ?_⟩
  · intro h
    simp [deleteFile, h]
  · intro h hns hent
    simp [deleteFile, h, hns, hent]
  · intro entry h hns hent hne
    simp [deleteFile, h, hns, hent, hne]

/-- An entry owned by the organization "other", used as the foreign entry
in witnesses. -/
def otherEntry : Entry :=
  ⟨0, "other", "k.txt", "k.txt", ⟨some 0, "other", "k.txt", none⟩, [1], "t", ["t"]⟩

/-- Witness state: one blob, one entry owned by "other", namespaces
"acme" and "other" both registered. -/
def stW : SysState :=
  ⟨⟨[some ⟨[1], "text/plain"⟩]⟩, ⟨[otherEntry], 1, ["acme", "other"]⟩⟩

/-- Witness for C4: the four failing paths at concrete states. -/
theorem deleteFile_checks_precede_deletion_witness :
    deleteFile stW none 0 = (stW, [], Except.error ErrCode.unauthorized)
    ∧ deleteFile stW (some ⟨""⟩) 0 = (stW, [], Except.error ErrCode.unauthorized)
    ∧ deleteFile stW (some acmeId) 5 = (stW, [], Except.error ErrCode.notFound)
    ∧ deleteFile stW (some acmeId) 0 = (stW, [], Except.error ErrCode.unauthorized) := by
  have h0 := deleteFile_checks_precede_deletion stW acmeId 0
  have h5 := deleteFile_checks_precede_deletion stW acmeId 5
  have hE := deleteFile_checks_precede_deletion stW ⟨""⟩ 0
  exact ⟨h0.1, hE.2.1 rfl, h5.2.2.1 rfl rfl rfl,
    h0.2.2.2 otherEntry rfl rfl rfl (by decide)⟩

/-- The entry created by a first upload of `bytesB` as "faq.txt" with
text "hello" under namespace "acme". -/
def firstEntry : Entry :=
  ⟨0, "acme", "faq.txt", "faq.txt", ⟨some 0, "acme", "faq.txt", none⟩, bytesB, "hello", ["hello"]⟩

/-- The system state after that first upload into the empty state. -/
def stAfterFirst : SysState :=
  ⟨⟨[some ⟨bytesB, "text/plain"⟩]⟩, ⟨[firstEntry], 1, ["acme"]⟩⟩

/-- Counterexample to claim C1: two byte-identical uploads into the same
namespace. The second call is a dedup hit (the entry list is unchanged),
yet the blob store grows from one to two blobs: the blob store write is
not skipped and the content hash is only consumed after storing. -/
theorem addFile_blob_write_not_skipped_cex :
    (addFile extNone sniffNone (extractConst "hello") emptyState (some acmeId)
      "faq.txt" "text/plain" bytesB none).1 = stAfterFirst
    ∧ (addFile extNone sniffNone (extractConst "hello") stAfterFirst (some acmeId)
        "faq.txt" "text/plain" bytesB none).1.rag = stAfterFirst.rag
    ∧ (addFile extNone sniffNone (extractConst "hello") stAfterFirst (some acmeId)
        "faq.txt" "text/plain" bytesB none).1.storage ≠ stAfterFirst.storage
    ∧ (addFile extNone sniffNone (extractConst "hello") stAfterFirst (some acmeId)
        "faq.txt" "text/plain" bytesB none).1.storage.blobs.length = 2 := by
  refine ⟨by decide, by decide, by decide, by decide⟩

/-- Claim C1 amended: on a dedup hit `addFile` still performs the blob
store write (the blob is appended unconditionally before the hash is
consumed by `rag.add`); only the Entry store is left unchanged, and the
call reports the existing entry identity. -/
theorem addFile_dedup_hit_still_stores_blob
    (extGuess : String → Option String) (sniffGuess : List Nat → Option String)
    (extract : Nat → String → List Nat → String → Except ErrCode String)
    (st : SysState) (id : Identity) (filename mt : String) (bytes : List Nat)
    (category : Option String) (text : String) (e : Entry)
    (hOrg : id.orgId.isEmpty = false)
    (hx : extract st.storage.blobs.length filename bytes
            (effectiveMime extGuess sniffGuess filename mt bytes) = Except.ok text)
    (hhit : st.rag.entries.find? (dedupHit id.orgId (contentHashFromArrayBuffer bytes))
              = some e) :
    (addFile extGuess sniffGuess extract st (some id) filename mt bytes category).1.storage.blobs
        = st.storage.blobs ++ [some ⟨bytes, effectiveMime extGuess sniffGuess filename mt bytes⟩]
    ∧ (addFile extGuess sniffGuess extract st (some id) filename mt bytes category).1.rag = st.rag
    ∧ (addFile extGuess sniffGuess extract st (some id) filename mt bytes category).2
        = Except.ok [("url", JsVal.str (urlOf st.storage.blobs.length)),
                     ("entryId", JsVal.num e.entryId)] := by
  have hadd := RAG.add_hit st.rag id.orgId filename filename
    ⟨some st.storage.blobs.length, id.orgId, filename, category⟩
    (contentHashFromArrayBuffer bytes) text e hhit
  rw [addFile_ok_eq extGuess sniffGuess extract st id filename mt bytes category text hOrg hx,
    hadd]
  exact ⟨rfl, rfl, rfl⟩

/-- Witness for the amended C1 at the concrete state reached after a
first identical upload. -/
theorem addFile_dedup_hit_still_stores_blob_witness :
    (addFile extNone sniffNone (extractConst "hello") stAfterFirst (some acmeId)
        "faq.txt" "text/plain" bytesB none).1.storage.blobs
      = stAfterFirst.storage.blobs ++ [some ⟨bytesB, "text/plain"⟩]
    ∧ (addFile extNone sniffNone (extractConst "hello") stAfterFirst (some acmeId)
        "faq.txt" "text/plain" bytesB none).1.rag = stAfterFirst.rag
    ∧ (addFile extNone sniffNone (extractConst "hello") stAfterFirst (some acmeId)
        "faq.txt" "text/plain" bytesB none).2
      = Except.ok [("url", JsVal.str (urlOf 1)), ("entryId", JsVal.num 0)] :=
  addFile_dedup_hit_still_stores_blob extNone sniffNone (extractConst "hello")
    stAfterFirst acmeId "faq.txt" "text/plain" bytesB none "hello" firstEntry
    rfl rfl rfl

/-- Counterexample to claim C3: a successful call returns an object whose
fields are exactly `url` and `entryId`; it has no `created` key, so no
created boolean flag is part of the result. -/
theorem addFile_result_lacks_created_cex :
    (addFile extNone sniffNone (extractConst "hello") emptyState (some acmeId)
      "faq.txt" "text/plain" bytesB none).2
      = Except.ok [("url", JsVal.str (urlOf 0)), ("entryId", JsVal.num 0)]
    ∧ List.lookup "created"
        [("url", JsVal.str (urlOf 0)), ("entryId", JsVal.num 0)] = (none : Option JsVal) := by
  refine ⟨by decide, by decide⟩

/-- Claim C3 amended: every successful call of `addFile` returns a record
with exactly a `url` string and an `entryId`; it carries no `created`
flag. -/
theorem addFile_result_shape
    (extGuess : String → Option String) (sniffGuess : List Nat → Option String)
    (extract : Nat → String → List Nat → String → Except ErrCode String)
    (st : SysState) (identity : Option Identity) (filename mt : String)
    (bytes : List Nat) (category : Option String) (l : List (String × JsVal))
    (h : (addFile extGuess sniffGuess extract st identity filename mt bytes category).2
          = Except.ok l) :
    (∃ u eid, l = [("url", JsVal.str u), ("entryId", JsVal.num eid)])
    ∧ l.lookup "created" = none := by
  cases identity with
  | none => simp [addFile] at h
  | some id =>
      cases hOrg : id.orgId.isEmpty with
      | true => simp [addFile, hOrg] at h
      | false =>
          cases hx : extract st.storage.blobs.length filename bytes
              (effectiveMime extGuess sniffGuess filename mt bytes) with
          | error e =>
              rw [addFile_extract_error_eq extGuess sniffGuess extract st id filename mt
                bytes category e hOrg hx] at h
              exact absurd h (by simp)
          | ok text =>
              rw [addFile_ok_eq extGuess sniffGuess extract st id filename mt
                bytes category text hOrg hx] at h
              simp only [Except.ok.injEq] at h
              subst h
              exact ⟨⟨_, _, rfl⟩, rfl⟩

/-- Witness for the amended C3 at a concrete successful call. -/
theorem addFile_result_shape_witness :
    (∃ u eid, [("url", JsVal.str (urlOf 0)), ("entryId", JsVal.num 0)]
        = [("url", JsVal.str u), ("entryId", JsVal.num eid)])
    ∧ List.lookup "created"
        [("url", JsVal.str (urlOf 0)), ("entryId", JsVal.num 0)] = (none : Option JsVal) :=
  addFile_result_shape extNone sniffNone (extractConst "hello") emptyState
    (some acmeId) "faq.txt" "text/plain" bytesB none
    [("url", JsVal.str (urlOf 0)), ("entryId", JsVal.num 0)] (by decide)

/-- Counterexample to claim C5: with an extraction oracle that throws, the
call fails after the blob store write, yet the post state still holds the
stored blob (it is even still URL-reachable): no compensating cleanup is
performed. -/
theorem addFile_failed_extraction_orphans_blob_cex :
    addFile extNone sniffNone extractFail emptyState (some acmeId)
        "faq.txt" "text/plain" bytesB none
      = (⟨⟨[some ⟨bytesB, "text/plain"⟩]⟩, emptyState.rag⟩, Except.error ErrCode.transientIO)
    ∧ Storage.getUrl (addFile extNone sniffNone extractFail emptyState (some acmeId)
        "faq.txt" "text/plain" bytesB none).1.storage 0 = some (urlOf 0) := by
  refine ⟨by decide, by decide⟩

/-- Claim C5 amended: when ingestion fails after the blob has been stored
(the extraction oracle throws), `addFile` performs no compensating
cleanup: the error propagates, the freshly stored blob stays in the blob
store (still URL-reachable), and the RAG state is unchanged. -/
theorem addFile_failed_extraction_keeps_blob
    (extGuess : String → Option String) (sniffGuess : List Nat → Option String)
    (extract : Nat → String → List Nat → String → Except ErrCode String)
    (st : SysState) (id : Identity) (filename mt : String) (bytes : List Nat)
    (category : Option String) (e : ErrCode)
    (hOrg : id.orgId.isEmpty = false)
    (hx : extract st.storage.blobs.length filename bytes
            (effectiveMime extGuess sniffGuess filename mt bytes) = Except.error e) :
    (addFile extGuess sniffGuess extract st (some id) filename mt bytes category).1.storage.blobs
        = st.storage.blobs ++ [some ⟨bytes, effectiveMime extGuess sniffGuess filename mt bytes⟩]
    ∧ Storage.getUrl
        (addFile extGuess sniffGuess extract st (some id) filename mt bytes category).1.storage
        st.storage.blobs.length = some (urlOf st.storage.blobs.length)
    ∧ (addFile extGuess sniffGuess extract st (some id) filename mt bytes category).2
        = Except.error e
    ∧ (addFile extGuess sniffGuess extract st (some id) filename mt bytes category).1.rag
        = st.rag := by
  rw [addFile_extract_error_eq extGuess sniffGuess extract st id filename mt bytes
    category e hOrg hx]
  exact ⟨rfl, Storage.getUrl_store_fresh st.storage.blobs _, rfl, rfl⟩

/-- Witness for the amended C5 at a concrete failing extraction. -/
theorem addFile_failed_extraction_keeps_blob_witness :
    (addFile extNone sniffNone extractFail emptyState (some acmeId)
        "faq.txt" "text/plain" bytesB none).1.storage.blobs
      = emptyState.storage.blobs ++ [some ⟨bytesB, "text/plain"⟩]
    ∧ Storage.getUrl (addFile extNone sniffNone extractFail emptyState (some acmeId)
        "faq.txt" "text/plain" bytesB none).1.storage 0 = some (urlOf 0)
    ∧ (addFile extNone sniffNone extractFail emptyState (some acmeId)
        "faq.txt" "text/plain" bytesB none).2 = Except.error ErrCode.transientIO
    ∧ (addFile extNone sniffNone extractFail emptyState (some acmeId)
        "faq.txt" "text/plain" bytesB none).1.rag = emptyState.rag :=
  addFile_failed_extraction_keeps_blob extNone sniffNone extractFail emptyState
    acmeId "faq.txt" "text/plain" bytesB none ErrCode.transientIO rfl rfl

/-- The zero-chunk entry committed for an empty extracted text. -/
def emptyTextEntry : Entry :=
  ⟨0, "acme", "faq.txt", "faq.txt", ⟨some 0, "acme", "faq.txt", none⟩, bytesB, "", []⟩

/-- Counterexample to claim C6: when extraction yields the empty text,
`addFile` does not fail with any error; it silently commits an Entry
whose chunk list is empty. -/
theorem addFile_empty_text_commits_entry_cex :
    addFile extNone sniffNone (extractConst "") emptyState (some acmeId)
        "faq.txt" "text/plain" bytesB none
      = (⟨⟨[some ⟨bytesB, "text/plain"⟩]⟩, ⟨[emptyTextEntry], 1, ["acme"]⟩⟩,
         Except.ok [("url", JsVal.str (urlOf 0)), ("entryId", JsVal.num 0)])
    ∧ emptyTextEntry.chunks = [] := by
  refine ⟨by decide, by decide⟩

/-- Claim C6 amended: `addFile` performs no emptiness check on the
extracted text; for empty or all-whitespace text it succeeds and commits
a zero-chunk Entry instead of failing. -/
theorem addFile_empty_text_creates_entry
    (extGuess : String → Option String) (sniffGuess : List Nat → Option String)
    (extract : Nat → String → List Nat → String → Except ErrCode String)
    (st : SysState) (id : Identity) (filename mt : String) (bytes : List Nat)
    (category : Option String) (text : String)
    (hOrg : id.orgId.isEmpty = false)
    (hx : extract st.storage.blobs.length filename bytes
            (effectiveMime extGuess sniffGuess filename mt bytes) = Except.ok text)
    (hws : isWhitespaceText text = true)
    (hmiss : st.rag.entries.find? (dedupHit id.orgId (contentHashFromArrayBuffer bytes))
              = none) :
    (addFile extGuess sniffGuess extract st (some id) filename mt bytes category).2
        = Except.ok [("url", JsVal.str (urlOf st.storage.blobs.length)),
                     ("entryId", JsVal.num st.rag.nextEntryId)]
    ∧ (addFile extGuess sniffGuess extract st (some id) filename mt bytes category).1.rag.entries
        = st.rag.entries
          ++ [⟨st.rag.nextEntryId, id.orgId, filename, filename,
               ⟨some st.storage.blobs.length, id.orgId, filename, category⟩,
               contentHashFromArrayBuffer bytes, text, []⟩] := by
  have hch : chunksOf text = [] := by simp [chunksOf, hws]
  have hadd := RAG.add_miss st.rag id.orgId filename filename
    ⟨some st.storage.blobs.length, id.orgId, filename, category⟩
    (contentHashFromArrayBuffer bytes) text hmiss
  rw [addFile_ok_eq extGuess sniffGuess extract st id filename mt bytes category text hOrg hx,
    hadd]
  refine ⟨rfl, ?_⟩
  rw [hch]

/-- Witness for the amended C6 at a concrete empty extraction. -/
theorem addFile_empty_text_creates_entry_witness :
    (addFile extNone sniffNone (extractConst "") emptyState (some acmeId)
        "faq.txt" "text/plain" bytesB none).2
      = Except.ok [("url", JsVal.str (urlOf 0)), ("entryId", JsVal.num 0)]
    ∧ (addFile extNone sniffNone (extractConst "") emptyState (some acmeId)
        "faq.txt" "text/plain" bytesB none).1.rag.entries
      = emptyState.rag.entries
        ++ [⟨0, "acme", "faq.txt", "faq.txt", ⟨some 0, "acme", "faq.txt", none⟩,
             bytesB, "", []⟩] :=
  addFile_empty_text_creates_entry extNone sniffNone (extractConst "") emptyState
    acmeId "faq.txt" "text/plain" bytesB none "" rfl rfl rfl rfl

/-- Claim C9: every Entry freshly created by `addFile` has its namespace
and its `metadata.uploadedBy` equal to the authenticated organization
identifier of the caller, and its `metadata.storageId` points at the blob
stored by that very call. -/
theorem addFile_entry_invariant
    (extGuess : String → Option String) (sniffGuess : List Nat → Option String)
    (extract : Nat → String → List Nat → String → Except ErrCode String)
    (st : SysState) (id : Identity) (filename mt : String) (bytes : List Nat)
    (category : Option String) (text : String)
    (hOrg : id.orgId.isEmpty = false)
    (hx : extract st.storage.blobs.length filename bytes
            (effectiveMime extGuess sniffGuess filename mt bytes) = Except.ok text)
    (hmiss : st.rag.entries.find? (dedupHit id.orgId (contentHashFromArrayBuffer bytes))
              = none) :
    ∃ e, (addFile extGuess sniffGuess extract st (some id) filename mt bytes category).1.rag.entries
          = st.rag.entries ++ [e]
      ∧ e.ns = id.orgId
      ∧ e.metadata.uploadedBy = id.orgId
      ∧ e.metadata.storageId = some st.storage.blobs.length
      ∧ (addFile extGuess sniffGuess extract st (some id) filename mt bytes
          category).1.storage.blobs.getD st.storage.blobs.length none
          = some ⟨bytes, effectiveMime extGuess sniffGuess filename mt bytes⟩ := by
  have hadd := RAG.add_miss st.rag id.orgId filename filename
    ⟨some st.storage.blobs.length, id.orgId, filename, category⟩
    (contentHashFromArrayBuffer bytes) text hmiss
  rw [addFile_ok_eq extGuess sniffGuess extract st id filename mt bytes category text hOrg hx,
    hadd]
  refine ⟨_, rfl, rfl, rfl, rfl, ?_⟩
  rw [List.getD_eq_getElem?_getD, List.getElem?_concat_length]
  rfl

/-- Witness for C9 at a concrete fresh upload. -/
theorem addFile_entry_invariant_witness :
    ∃ e, (addFile extNone sniffNone (extractConst "hello") emptyState (some acmeId)
          "faq.txt" "text/plain" bytesB none).1.rag.entries
          = emptyState.rag.entries ++ [e]
      ∧ e.ns = "acme"
      ∧ e.metadata.uploadedBy = "acme"
      ∧ e.metadata.storageId = some 0
      ∧ (addFile extNone sniffNone (extractConst "hello") emptyState (some acmeId)
          "faq.txt" "text/plain" bytesB none).1.storage.blobs.getD 0 none
          = some ⟨bytesB, "text/plain"⟩ :=
  addFile_entry_invariant extNone sniffNone (extractConst "hello") emptyState
    acmeId "faq.txt" "text/plain" bytesB none "hello" rfl rfl rfl

/-- Claim C10: on a dedup hit (`created = false`), the URL returned by
`addFile` is the URL of the blob freshly stored during this very call,
whose identifier is referenced by no Entry (in particular not the
storage pointer of the pre-existing colliding Entry), and that fresh
blob is not deleted afterwards. -/
theorem addFile_dedup_hit_returns_fresh_url
    (extGuess : String → Option String) (sniffGuess : List Nat → Option String)
    (extract : Nat → String → List Nat → String → Except ErrCode String)
    (st : SysState) (id : Identity) (filename mt : String) (bytes : List Nat)
    (category : Option String) (text : String) (e : Entry)
    (hOrg : id.orgId.isEmpty = false)
    (hx : extract st.storage.blobs.length filename bytes
            (effectiveMime extGuess sniffGuess filename mt bytes) = Except.ok text)
    (hhit : st.rag.entries.find? (dedupHit id.orgId (contentHashFromArrayBuffer bytes))
              = some e)
    (hfresh : ∀ e2 ∈ st.rag.entries, e2.metadata.storageId ≠ some st.storage.blobs.length) :
    (addFile extGuess sniffGuess extract st (some id) filename mt bytes category).2
        = Except.ok [("url", JsVal.str (urlOf st.storage.blobs.length)),
                     ("entryId", JsVal.num e.entryId)]
    ∧ (addFile extGuess sniffGuess extract st (some id) filename mt bytes category).1.rag
        = st.rag
    ∧ (∀ e2 ∈ (addFile extGuess sniffGuess extract st (some id) filename mt bytes
          category).1.rag.entries, e2.metadata.storageId ≠ some st.storage.blobs.length)
    ∧ e.metadata.storageId ≠ some st.storage.blobs.length
    ∧ (addFile extGuess sniffGuess extract st (some id) filename mt bytes
        category).1.storage.blobs.getD st.storage.blobs.length none
        = some ⟨bytes, effectiveMime extGuess sniffGuess filename mt bytes⟩ := by
  have hadd := RAG.add_hit st.rag id.orgId filename filename
    ⟨some st.storage.blobs.length, id.orgId, filename, category⟩
    (contentHashFromArrayBuffer bytes) text e hhit
  have hmem : e ∈ st.rag.entries := List.mem_of_find?_eq_some hhit
  rw [addFile_ok_eq extGuess sniffGuess extract st id filename mt bytes category text hOrg hx,
    hadd]
  refine ⟨rfl, rfl, hfresh, hfresh e hmem, ?_⟩
  rw [List.getD_eq_getElem?_getD, List.getElem?_concat_length]
  rfl

/-- Witness for C10 at the concrete state after a first identical
upload. -/
theorem addFile_dedup_hit_returns_fresh_url_witness :
    (addFile extNone sniffNone (extractConst "hello") stAfterFirst (some acmeId)
        "faq.txt" "text/plain" bytesB none).2
      = Except.ok [("url", JsVal.str (urlOf 1)), ("entryId", JsVal.num 0)]
    ∧ (addFile extNone sniffNone (extractConst "hello") stAfterFirst (some acmeId)
        "faq.txt" "text/plain" bytesB none).1.rag = stAfterFirst.rag
    ∧ (∀ e2 ∈ (addFile extNone sniffNone (extractConst "hello") stAfterFirst (some acmeId)
        "faq.txt" "text/plain" bytesB none).1.rag.entries,
        e2.metadata.storageId ≠ some 1)
    ∧ firstEntry.metadata.storageId ≠ some 1
    ∧ (addFile extNone sniffNone (extractConst "hello") stAfterFirst (some acmeId)
        "faq.txt" "text/plain" bytesB none).1.storage.blobs.getD 1 none
      = some ⟨bytesB, "text/plain"⟩ :=
  addFile_dedup_hit_returns_fresh_url extNone sniffNone (extractConst "hello")
    stAfterFirst acmeId "faq.txt" "text/plain" bytesB none "hello" firstEntry
    rfl rfl rfl (by decide)

/-- Claim C8: in every successful execution of `deleteFile` the deletion
trace consists of dependent-data deletions (the blob, when a storageId is
present, then the chunks) strictly before the Entry metadata record
deletion; the entry record step is the last element of the trace. -/
theorem deleteFile_dependents_before_entry
    (st : SysState) (idn : Option Identity) (eid : Nat)
    (h : (deleteFile st idn eid).2.2 = Except.ok ()) :
    ∃ pre, (deleteFile st idn eid).2.1
        = pre ++ [DeleteOp.chunks eid, DeleteOp.entryRecord eid]
      ∧ ∀ op ∈ pre, ∃ sid, op = DeleteOp.blob sid := by
  match idn with
  | none => simp [deleteFile] at h
  | some id =>
      by_cases hOrg : id.orgId.isEmpty = true
      · simp [deleteFile, hOrg] at h
      · rw [Bool.not_eq_true] at hOrg
        cases hns : RAG.getNamespace st.rag id.orgId with
        | none => simp [deleteFile, hOrg, hns] at h
        | some nsv =>
            cases hent : RAG.getEntry st.rag eid with
            | none => simp [deleteFile, hOrg, hns, hent] at h
            | some entry =>
                by_cases hup : entry.metadata.uploadedBy = id.orgId
                · cases hsid : entry.metadata.storageId with
                  | some sid =>
                      refine ⟨[DeleteOp.blob sid], ?_, ?_⟩
                      · simp [deleteFile, hOrg, hns, hent, hup, hsid]
                      · intro op hop
                        simp only [List.mem_singleton] at hop
                        exact ⟨sid, hop⟩
                  | none =>
                      refine ⟨[], ?_, ?_⟩
                      · simp [deleteFile, hOrg, hns, hent, hup, hsid]
                      · intro op hop
                        simp at hop
                · simp [deleteFile, hOrg, hns, hent, hup] at h

/-- Witness for C8: a concrete successful deletion by the owner. -/
theorem deleteFile_dependents_before_entry_witness :
    ∃ pre, (deleteFile stW (some ⟨"other"⟩) 0).2.1
        = pre ++ [DeleteOp.chunks 0, DeleteOp.entryRecord 0]
      ∧ ∀ op ∈ pre, ∃ sid, op = DeleteOp.blob sid :=
  deleteFile_dependents_before_entry stW (some ⟨"other"⟩) 0 (by decide)

/-- Characterization of `addFile` on a dedup hit: the blob is appended,
the RAG state is unchanged, and the existing entry identity is
reported. -/
theorem addFile_hit_eq (extGuess : String → Option String)
    (sniffGuess : List Nat → Option String)
    (extract : Nat → String → List Nat → String → Except ErrCode String)
    (st : SysState) (id : Identity) (filename mt : String) (bytes : List Nat)
    (category : Option String) (text : String) (e : Entry)
    (hOrg : id.orgId.isEmpty = false)
    (hx : extract st.storage.blobs.length filename bytes
            (effectiveMime extGuess sniffGuess filename mt bytes) = Except.ok text)
    (hhit : st.rag.entries.find? (dedupHit id.orgId (contentHashFromArrayBuffer bytes))
              = some e) :
    addFile extGuess sniffGuess extract st (some id) filename mt bytes category =
      (⟨⟨st.storage.blobs ++ [some ⟨bytes, effectiveMime extGuess sniffGuess filename mt bytes⟩]⟩,
        st.rag⟩,
       Except.ok [("url", JsVal.str (urlOf st.storage.blobs.length)),
                  ("entryId", JsVal.num e.entryId)]) := by
  rw [addFile_ok_eq extGuess sniffGuess extract st id filename mt bytes category text hOrg hx,
    RAG.add_hit st.rag id.orgId filename filename
      ⟨some st.storage.blobs.length, id.orgId, filename, category⟩
      (contentHashFromArrayBuffer bytes) text e hhit]

/-- Claim C2: uploading byte-identical content twice under the same
namespace creates exactly one Entry. The first call answers with the
fresh entry identity; the second call changes nothing in the Entry store
and answers with the very same entry identity, and the `rag.add` it
performs (for any metadata) resolves with `created = false` and that same
identity. -/
theorem addFile_twice_single_entry
    (extGuess : String → Option String) (sniffGuess : List Nat → Option String)
    (extract : Nat → String → List Nat → String → Except ErrCode String)
    (st0 : SysState) (id : Identity) (filename mt : String) (bytes : List Nat)
    (category : Option String) (text : String)
    (hOrg : id.orgId.isEmpty = false)
    (hx : ∀ sid, extract sid filename bytes
            (effectiveMime extGuess sniffGuess filename mt bytes) = Except.ok text)
    (hmiss : st0.rag.entries.find? (dedupHit id.orgId (contentHashFromArrayBuffer bytes))
              = none) :
    (addFile extGuess sniffGuess extract st0 (some id) filename mt bytes
        category).1.rag.entries.length = st0.rag.entries.length + 1
    ∧ (addFile extGuess sniffGuess extract
        (addFile extGuess sniffGuess extract st0 (some id) filename mt bytes category).1
        (some id) filename mt bytes category).1.rag
      = (addFile extGuess sniffGuess extract st0 (some id) filename mt bytes category).1.rag
    ∧ (addFile extGuess sniffGuess extract st0 (some id) filename mt bytes category).2
      = Except.ok [("url", JsVal.str (urlOf st0.storage.blobs.length)),
                   ("entryId", JsVal.num st0.rag.nextEntryId)]
    ∧ (addFile extGuess sniffGuess extract
        (addFile extGuess sniffGuess extract st0 (some id) filename mt bytes category).1
        (some id) filename mt bytes category).2
      = Except.ok [("url", JsVal.str (urlOf (st0.storage.blobs.length + 1))),
                   ("entryId", JsVal.num st0.rag.nextEntryId)]
    ∧ (∀ key2 title2 md2 txt2,
        RAG.add (addFile extGuess sniffGuess extract st0 (some id) filename mt bytes
            category).1.rag
          id.orgId key2 title2 md2 (contentHashFromArrayBuffer bytes) txt2
        = ((addFile extGuess sniffGuess extract st0 (some id) filename mt bytes
            category).1.rag,
           st0.rag.nextEntryId, false)) := by
  have h1 := addFile_ok_eq extGuess sniffGuess extract st0 id filename mt bytes category
    text hOrg (hx _)
  rw [RAG.add_miss st0.rag id.orgId filename filename
    ⟨some st0.storage.blobs.length, id.orgId, filename, category⟩
    (contentHashFromArrayBuffer bytes) text hmiss] at h1
  have hhit2 : ((⟨st0.rag.entries
      ++ [⟨st0.rag.nextEntryId, id.orgId, filename, filename,
           ⟨some st0.storage.blobs.length, id.orgId, filename, category⟩,
           contentHashFromArrayBuffer bytes, text, chunksOf text⟩],
      st0.rag.nextEntryId + 1,
      if st0.rag.namespaces.contains id.orgId then st0.rag.namespaces
      else st0.rag.namespaces ++ [id.orgId]⟩ : RagState)).entries.find?
        (dedupHit id.orgId (contentHashFromArrayBuffer bytes))
      = some ⟨st0.rag.nextEntryId, id.orgId, filename, filename,
           ⟨some st0.storage.blobs.length, id.orgId, filename, category⟩,
           contentHashFromArrayBuffer bytes, text, chunksOf text⟩ := by
    show (st0.rag.entries ++ _).find? _ = _
    rw [List.find?_append, hmiss]
    simp [dedupHit]
  have h2 := addFile_hit_eq extGuess sniffGuess extract
    ⟨⟨st0.storage.blobs
        ++ [some ⟨bytes, effectiveMime extGuess sniffGuess filename mt bytes⟩]⟩,
      ⟨st0.rag.entries
        ++ [⟨st0.rag.nextEntryId, id.orgId, filename, filename,
             ⟨some st0.storage.blobs.length, id.orgId, filename, category⟩,
             contentHashFromArrayBuffer bytes, text, chunksOf text⟩],
        st0.rag.nextEntryId + 1,
        if st0.rag.namespaces.contains id.orgId then st0.rag.namespaces
        else st0.rag.namespaces ++ [id.orgId]⟩⟩
    id filename mt bytes category text
    ⟨st0.rag.nextEntryId, id.orgId, filename, filename,
     ⟨some st0.storage.blobs.length, id.orgId, filename, category⟩,
     contentHashFromArrayBuffer bytes, text, chunksOf text⟩
    hOrg (hx _) hhit2
  rw [h1]
  refine ⟨by simp, ?_, rfl, ?_, ?_⟩
  · rw [h2]
  · rw [h2]
    simp
  · intro key2 title2 md2 txt2
    exact RAG.add_hit _ id.orgId key2 title2 md2 (contentHashFromArrayBuffer bytes) txt2
      _ hhit2

/-- Witness for C2: two identical uploads of `bytesB` into the empty
state. -/
theorem addFile_twice_single_entry_witness :
    (addFile extNone sniffNone (extractConst "hello") emptyState (some acmeId)
        "faq.txt" "text/plain" bytesB none).1.rag.entries.length
      = emptyState.rag.entries.length + 1
    ∧ (addFile extNone sniffNone (extractConst "hello")
        (addFile extNone sniffNone (extractConst "hello") emptyState (some acmeId)
          "faq.txt" "text/plain" bytesB none).1
        (some acmeId) "faq.txt" "text/plain" bytesB none).1.rag
      = (addFile extNone sniffNone (extractConst "hello") emptyState (some acmeId)
          "faq.txt" "text/plain" bytesB none).1.rag
    ∧ (addFile extNone sniffNone (extractConst "hello") emptyState (some acmeId)
        "faq.txt" "text/plain" bytesB none).2
      = Except.ok [("url", JsVal.str (urlOf 0)), ("entryId", JsVal.num 0)]
    ∧ (addFile extNone sniffNone (extractConst "hello")
        (addFile extNone sniffNone (extractConst "hello") emptyState (some acmeId)
          "faq.txt" "text/plain" bytesB none).1
        (some acmeId) "faq.txt" "text/plain" bytesB none).2
      = Except.ok [("url", JsVal.str (urlOf 1)), ("entryId", JsVal.num 0)]
    ∧ (∀ key2 title2 md2 txt2,
        RAG.add (addFile extNone sniffNone (extractConst "hello") emptyState (some acmeId)
            "faq.txt" "text/plain" bytesB none).1.rag
          "acme" key2 title2 md2 (contentHashFromArrayBuffer bytesB) txt2
        = ((addFile extNone sniffNone (extractConst "hello") emptyState (some acmeId)
            "faq.txt" "text/plain" bytesB none).1.rag, 0, false)) :=
  addFile_twice_single_entry extNone sniffNone (extractConst "hello") emptyState
    acmeId "faq.txt" "text/plain" bytesB none "hello" rfl (fun _ => rfl) rfl
